import Mathlib

/-!
# Verification of the cross-channel reliability bridge

Shallow embedding of the reliability core of the repository:

* `CacheTTL` — bounded TTL cache (`src/integrations/ponte-chatwoot.ts`);
* `normalizarTelefoneE164`, `mascararTelefone` — identity normalizer / log mask
  (`src/integrations/ponte-chatwoot.ts`);
* `verificarHmacHandoff`, `validarAssinaturaWebhook` — webhook signature
  verifiers (`src/integrations/ponte-chatwoot.ts`);
* `comRetry`, `isTransientError` — retry/backoff executor (api-meta plugin);
* `verificarIdempotency`, `registrarIdempotency`, `sendPayloadModelo` —
  idempotency ledger and the outbound delivery gate (api-meta plugin);
* `activateHandoff`, `deactivateHandoff`, `isHandoffActive` — handoff store
  (`handoff-store`).

JavaScript `Map` objects are modelled as association lists in insertion
order (a JS `Map` iterates in insertion order; `set` on an existing key
keeps its position, `set` on a fresh key appends).  `Date.now()` is passed
explicitly as a `Nat` millisecond clock.  External library calls (HMAC,
HTTP, the filesystem) are modelled as explicit parameters or explicit
state, as noted at each definition.
-/

/-! ## JS `Map` modelled as an insertion-ordered association list -/

/-- First value bound to `k`, like `Map.prototype.get`. -/
def lookupKey {V : Type} (k : String) : List (String × V) → Option V
  | [] => none
  | p :: t => if p.1 = k then some p.2 else lookupKey k t

/-- `Map.prototype.set`: replace in place when the key is present, else
append.  (A JS `Map` never holds a key twice, so replacing the first
occurrence is the faithful model.) -/
def mapSet {V : Type} : List (String × V) → String → V → List (String × V)
  | [], k, v => [(k, v)]
  | p :: t, k, v => if p.1 = k then (k, v) :: t else p :: mapSet t k v

/-- `Map.prototype.delete`: drop every binding of `k`. -/
def eraseKey {V : Type} (k : String) (m : List (String × V)) : List (String × V) :=
  m.filter (fun p => ¬ (p.1 = k))

theorem lookupKey_mapSet_self {V : Type} (m : List (String × V)) (k : String) (v : V) :
    lookupKey k (mapSet m k v) = some v := by
  induction m with
  | nil => simp [mapSet, lookupKey]
  | cons p t ih =>
    by_cases hp : p.1 = k
    · simp [mapSet, lookupKey, hp]
    · simp [mapSet, lookupKey, hp, ih]

theorem lookupKey_eraseKey_self {V : Type} (m : List (String × V)) (k : String) :
    lookupKey k (eraseKey k m) = none := by
  induction m with
  | nil => simp [eraseKey, lookupKey]
  | cons p t ih =>
    by_cases hp : p.1 = k
    · simpa [eraseKey, List.filter_cons, hp] using ih
    · simpa [eraseKey, List.filter_cons, hp, lookupKey] using ih

theorem length_mapSet_le {V : Type} (m : List (String × V)) (k : String) (v : V) :
    (mapSet m k v).length ≤ m.length + 1 := by
  induction m with
  | nil => simp [mapSet]
  | cons p t ih =>
    by_cases hp : p.1 = k
    · simp [mapSet, hp]
    · simp only [mapSet, if_neg hp, List.length_cons]
      omega

/-! ## Bounded TTL cache (`CacheTTL`, ponte-chatwoot.ts lines 77–130)

```ts
class CacheTTL<K, V> {
  private mapa = new Map<K, { valor: V; expira: number }>();
  ...
}
```
The key type is fixed to `String` (the caches are keyed by normalized
phone numbers). -/

structure EntradaTTL (V : Type) where
  valor : V
  expira : Nat
  deriving Repr, DecidableEq

structure CacheTTL (V : Type) where
  mapa : List (String × EntradaTTL V)
  ttlMs : Nat
  maxEntradas : Nat
  deriving Repr, DecidableEq

/-- Constructor: `ttlMs = ttlMinutos * 60_000`. -/
def CacheTTL.nova (V : Type) (ttlMinutos : Nat) (maxEntradas : Nat) : CacheTTL V :=
  { mapa := [], ttlMs := ttlMinutos * 60000, maxEntradas := maxEntradas }

/-- `Math.floor(maxEntradas * 0.8)`.  For the integer magnitudes used by the
caches (`maxEntradas ≤ 10_000`) the double-precision product `m * 0.8`
rounds to a value with the same floor as the rational `8m/10`, so the
JS expression agrees with truncating natural division. -/
def floor08 (m : Nat) : Nat := m * 8 / 10

/-- `get`: lazy expiry — an entry read strictly past `expira` is deleted and
reported absent.  Returns the value (if any) and the updated cache. -/
def CacheTTL.get {V : Type} (c : CacheTTL V) (chave : String) (now : Nat) :
    Option V × CacheTTL V :=
  match lookupKey chave c.mapa with
  | none => (none, c)
  | some entrada =>
    if now > entrada.expira then
      (none, { c with mapa := eraseKey chave c.mapa })
    else
      (some entrada.valor, c)

/-- `evictar`: drop expired entries; if the cache still holds at least
`maxEntradas` entries, drop the oldest-inserted ones down to
`floor(maxEntradas * 0.8)`. -/
def CacheTTL.evictar {V : Type} (c : CacheTTL V) (now : Nat) : CacheTTL V :=
  let m1 := c.mapa.filter (fun p => ¬ (now > p.2.expira))
  let m2 :=
    if m1.length ≥ c.maxEntradas then
      m1.drop (m1.length - floor08 c.maxEntradas)
    else
      m1
  { c with mapa := m2 }

/-- `set`: evict when already at or above the bound, then insert with
`expira = now + ttlMs`. -/
def CacheTTL.set {V : Type} (c : CacheTTL V) (chave : String) (valor : V) (now : Nat) :
    CacheTTL V :=
  let c1 := if c.mapa.length ≥ c.maxEntradas then c.evictar now else c
  { c1 with mapa := mapSet c1.mapa chave { valor := valor, expira := now + c.ttlMs } }

/-! ## Identity normalizer (`normalizarTelefoneE164`, ponte-chatwoot.ts 164–178)

```ts
const semJid = phone.split("@")[0];
const digitos = semJid.replace(/\D/g, "");
if (digitos.length === 12 && digitos.startsWith("55")) {
  return digitos.slice(0, 4) + "9" + digitos.slice(4);
}
return digitos;
```
Strings are handled at the `List Char` level and wrapped back into
`String`. -/

/-- List-level body of `normalizarTelefoneE164`. -/
def normalizeL (l : List Char) : List Char :=
  let digitos := (l.takeWhile (fun c => c ≠ '@')).filter (fun c => c.isDigit)
  if digitos.length = 12 ∧ digitos.take 2 = ['5', '5'] then
    digitos.take 4 ++ '9' :: digitos.drop 4
  else
    digitos

def normalizarTelefoneE164 (phone : String) : String :=
  String.mk (normalizeL phone.data)

theorem takeWhile_ne_at_of_all_digits (l : List Char) (h : ∀ c ∈ l, c.isDigit) :
    l.takeWhile (fun c => c ≠ '@') = l := by
  refine List.takeWhile_eq_self_iff.mpr ?_
  intro x hx
  have hc : x.isDigit := h x hx
  refine decide_eq_true ?_
  intro he
  rw [he] at hc
  simp [Char.isDigit] at hc

theorem all_digits_normalizeL (l : List Char) : ∀ c ∈ normalizeL l, c.isDigit := by
  intro c hc
  unfold normalizeL at hc
  set digitos := (l.takeWhile (fun c => c ≠ '@')).filter (fun c => c.isDigit) with hd
  have hdig : ∀ x ∈ digitos, x.isDigit := by
    intro x hx
    rw [hd] at hx
    exact (List.mem_filter.mp hx).2
  by_cases hcond : digitos.length = 12 ∧ digitos.take 2 = ['5', '5']
  · rw [if_pos hcond] at hc
    rcases List.mem_append.mp hc with h1 | h2
    · exact hdig c (List.mem_of_mem_take h1)
    · rcases List.mem_cons.mp h2 with h9 | hr
      · rw [h9]; rfl
      · exact hdig c (List.mem_of_mem_drop hr)
  · rw [if_neg hcond] at hc
    exact hdig c hc

/-- The output of the normalizer never satisfies the 9th-digit insertion
condition again: the insertion branch yields 13 digits, and the plain
branch already failed the condition. -/
theorem normalizeL_not_cond (l : List Char) :
    ¬ ((normalizeL l).length = 12 ∧ (normalizeL l).take 2 = ['5', '5']) := by
  unfold normalizeL
  set digitos := (l.takeWhile (fun c => c ≠ '@')).filter (fun c => c.isDigit) with hd
  by_cases hc0 : digitos.length = 12 ∧ digitos.take 2 = ['5', '5']
  · rw [if_pos hc0]
    intro hcond
    have hlen : (digitos.take 4 ++ '9' :: digitos.drop 4).length = 13 := by
      simp [List.length_append, List.length_take, List.length_drop, hc0.1]
    omega
  · rw [if_neg hc0]
    exact hc0

theorem normalizeL_idem (l : List Char) : normalizeL (normalizeL l) = normalizeL l := by
  have hnc := normalizeL_not_cond l
  have hdig := all_digits_normalizeL l
  generalize hy : normalizeL l = y at hnc hdig ⊢
  simp only [normalizeL]
  rw [takeWhile_ne_at_of_all_digits y hdig,
    List.filter_eq_self.mpr (fun c hc => hdig c hc)]
  exact if_neg hnc

/-- Claim C3 helper at `String` level. -/
theorem normalizarTelefoneE164_data (phone : String) :
    (normalizarTelefoneE164 phone).data = normalizeL phone.data := rfl

/-! ## Log mask (`mascararTelefone`, ponte-chatwoot.ts 196–201)

```ts
if (tel.length <= 8) { return "****"; }
return tel.slice(0, 4) + "****" + tel.slice(-5);
``` -/

/-- List-level body of `mascararTelefone`. -/
def mascararL (l : List Char) : List Char :=
  if l.length ≤ 8 then
    "****".data
  else
    l.take 4 ++ "****".data ++ l.drop (l.length - 5)

def mascararTelefone (tel : String) : String :=
  String.mk (mascararL tel.data)

/-! ## Generic cache lemmas -/

theorem CacheTTL.get_eq_of_lookup_some {V : Type} (c : CacheTTL V) (k : String)
    (now : Nat) (e : EntradaTTL V) (h : lookupKey k c.mapa = some e) :
    c.get k now =
      if now > e.expira then (none, { c with mapa := eraseKey k c.mapa })
      else (some e.valor, c) := by
  unfold CacheTTL.get
  rw [h]

theorem CacheTTL.set_mapa {V : Type} (c : CacheTTL V) (k : String) (v : V) (now : Nat) :
    (c.set k v now).mapa =
      mapSet (if c.mapa.length ≥ c.maxEntradas then c.evictar now else c).mapa k
        { valor := v, expira := now + c.ttlMs } := rfl

theorem floor08_le (m : Nat) : floor08 m ≤ m := by
  unfold floor08
  calc m * 8 / 10 ≤ m * 10 / 10 :=
        Nat.div_le_div_right (Nat.mul_le_mul_left m (by norm_num))
    _ = m := Nat.mul_div_cancel m (by norm_num)

theorem floor08_lt (m : Nat) (h : 1 ≤ m) : floor08 m < m := by
  unfold floor08
  rw [Nat.div_lt_iff_lt_mul (by norm_num : (0:ℕ) < 10)]
  omega

/-- After `evictar`, a cache whose bound is at least 1 holds strictly fewer
than `maxEntradas` entries, whatever the starting state. -/
theorem CacheTTL.evictar_length_lt {V : Type} (c : CacheTTL V) (now : Nat)
    (hmax : 1 ≤ c.maxEntradas) : (c.evictar now).mapa.length < c.maxEntradas := by
  unfold CacheTTL.evictar
  set m1 := c.mapa.filter (fun p => ¬ (now > p.2.expira)) with hm1
  by_cases hge : m1.length ≥ c.maxEntradas
  · simp only [if_pos hge, List.length_drop]
    have h1 : floor08 c.maxEntradas ≤ m1.length :=
      le_trans (floor08_le c.maxEntradas) hge
    have h2 : floor08 c.maxEntradas < c.maxEntradas := floor08_lt c.maxEntradas hmax
    omega
  · simp only [if_neg hge]
    omega

/-! ## Claim theorems about the TTL cache -/

/-- **C3.** The identity normalizer is idempotent: for every input string
`x`, `normalize(normalize(x)) = normalize(x)` — in particular also on
12-digit inputs starting with `55`, where the Brazilian mobile-prefix digit
`9` is inserted (the inserted form has 13 digits, so the insertion branch
cannot fire twice). -/
theorem normalizarTelefoneE164_idempotente (x : String) :
    normalizarTelefoneE164 (normalizarTelefoneE164 x) = normalizarTelefoneE164 x := by
  unfold normalizarTelefoneE164
  exact congrArg String.mk (normalizeL_idem x.data)

/-- **C1, counterexample.**  The claim says `get(k)` returns absent at any
time `≥ t` after insertion.  At *exactly* `t` after insertion the code
tests `Date.now() > entrada.expira`, which is false, so the value is still
returned: with `ttl = 1 minute = 60000 ms`, a `set` at time 0 followed by a
`get` at time 60000 (elapsed = ttl) yields the value, not absent. -/
theorem cacheTTL_fronteira_ttl_cex :
    (((CacheTTL.nova Nat 1 10).set "k" 7 0).get "k" 60000).1 = some 7 ∧
      (CacheTTL.nova Nat 1 10).ttlMs = 60000 := by
  constructor
  · rfl
  · rfl

/-- **C1 (amended).**  After `set(k, v)` at time `now` in a cache with TTL
`t = ttlMs`, `get(k)` at elapsed time `d` returns `v` for every `d ≤ t`
(not only `d < t`), and returns absent — deleting the entry — for every
`d > t` (not `d ≥ t`). -/
theorem cacheTTL_get_apos_set (c : CacheTTL Nat) (k : String) (v : Nat) (now d : Nat) :
    (d ≤ c.ttlMs → ((c.set k v now).get k (now + d)).1 = some v) ∧
    (d > c.ttlMs → ((c.set k v now).get k (now + d)).1 = none ∧
      lookupKey k ((c.set k v now).get k (now + d)).2.mapa = none) := by
  have hlook : lookupKey k (c.set k v now).mapa =
      some { valor := v, expira := now + c.ttlMs } := by
    rw [CacheTTL.set_mapa]
    exact lookupKey_mapSet_self _ _ _
  have hget := CacheTTL.get_eq_of_lookup_some (c.set k v now) k (now + d) _ hlook
  constructor
  · intro hd
    rw [hget, if_neg (by omega : ¬ (now + d > now + c.ttlMs))]
  · intro hd
    rw [hget, if_pos (by omega : now + d > now + c.ttlMs)]
    exact ⟨rfl, lookupKey_eraseKey_self _ _⟩

/-- **C1, witness.** -/
theorem cacheTTL_get_apos_set_witness :
    (((CacheTTL.nova Nat 1 10).set "k" 7 0).get "k" 59999).1 = some 7 ∧
      (((CacheTTL.nova Nat 1 10).set "k" 7 0).get "k" 60001).1 = none := by
  constructor
  · exact (cacheTTL_get_apos_set (CacheTTL.nova Nat 1 10) "k" 7 0 59999).1 (by decide)
  · exact ((cacheTTL_get_apos_set (CacheTTL.nova Nat 1 10) "k" 7 0 60001).2 (by decide)).1

/-- Concrete cache for the C2 counterexample: bound 10, holding exactly 10
entries of which only the oldest (`"a0"`) is expired at time 50. -/
def cacheC2 : CacheTTL Nat :=
  { mapa :=
      [("a0", { valor := 0, expira := 0 }), ("a1", { valor := 1, expira := 100 }),
       ("a2", { valor := 2, expira := 100 }), ("a3", { valor := 3, expira := 100 }),
       ("a4", { valor := 4, expira := 100 }), ("a5", { valor := 5, expira := 100 }),
       ("a6", { valor := 6, expira := 100 }), ("a7", { valor := 7, expira := 100 }),
       ("a8", { valor := 8, expira := 100 }), ("a9", { valor := 9, expira := 100 })],
    ttlMs := 60000, maxEntradas := 10 }

/-- **C2, counterexample.**  The claim says that after dropping expired
entries the eviction routine drops oldest-inserted entries whenever the
cache is still over 80% of `maxEntradas`.  The code instead only enters the
FIFO phase when the size is still at or above `maxEntradas` itself: with bound
10 and 10 entries of which one is expired, eviction leaves 9 entries —
over the 80% mark of 8 — and nothing more is dropped. -/
theorem cacheTTL_evictar_80pct_cex :
    (cacheC2.evictar 50).mapa.length = 9 ∧ floor08 cacheC2.maxEntradas = 8 := by
  constructor
  · rfl
  · rfl

/-- **C2 (amended).**  The eviction routine first drops all already-expired
entries; then, only when the remaining size is still **at or above
`maxEntradas`** (not merely over 80% of it), it drops oldest-inserted
entries — a suffix of the insertion order survives — leaving exactly
`floor(maxEntradas * 0.8)` entries; when the remaining size is below
`maxEntradas`, nothing further is dropped even if it exceeds the 80% mark. -/
theorem cacheTTL_evictar_caracterizacao (c : CacheTTL Nat) (now : Nat) :
    (∀ p ∈ (c.evictar now).mapa, ¬ (now > p.2.expira)) ∧
    ((c.mapa.filter (fun p => ¬ (now > p.2.expira))).length ≥ c.maxEntradas →
      (c.evictar now).mapa.length = floor08 c.maxEntradas ∧
        List.IsSuffix (c.evictar now).mapa
          (c.mapa.filter (fun p => ¬ (now > p.2.expira)))) ∧
    ((c.mapa.filter (fun p => ¬ (now > p.2.expira))).length < c.maxEntradas →
      (c.evictar now).mapa = c.mapa.filter (fun p => ¬ (now > p.2.expira))) := by
  unfold CacheTTL.evictar
  set m1 := c.mapa.filter (fun p => ¬ (now > p.2.expira)) with hm1
  refine ⟨?_, ?_, ?_⟩
  · intro p hp
    have hmem : p ∈ m1 := by
      by_cases hge : m1.length ≥ c.maxEntradas
      · simp only [if_pos hge] at hp
        exact List.mem_of_mem_drop hp
      · simpa only [if_neg hge] using hp
    have := (List.mem_filter.mp (hm1 ▸ hmem)).2
    exact of_decide_eq_true this
  · intro hge
    simp only [if_pos hge]
    have h1 : floor08 c.maxEntradas ≤ m1.length :=
      le_trans (floor08_le c.maxEntradas) hge
    refine ⟨?_, List.drop_suffix _ _⟩
    simp only [List.length_drop]
    omega
  · intro hlt
    simp only [if_neg (by omega : ¬ m1.length ≥ c.maxEntradas)]

/-- **C2, witness.** -/
theorem cacheTTL_evictar_caracterizacao_witness :
    (cacheC2.evictar 0).mapa.length = floor08 cacheC2.maxEntradas ∧
      (cacheC2.evictar 101).mapa =
        cacheC2.mapa.filter (fun p => ¬ ((101:Nat) > p.2.expira)) := by
  constructor
  · exact ((cacheTTL_evictar_caracterizacao cacheC2 0).2.1 (by decide)).1
  · exact (cacheTTL_evictar_caracterizacao cacheC2 101).2.2 (by decide)

/-- Degenerate cache for the C4 counterexample: `maxEntradas = 0`. -/
def cacheC4 : CacheTTL Nat := { mapa := [], ttlMs := 60000, maxEntradas := 0 }

/-- **C4, counterexample.**  With `maxEntradas = 0` the eviction run by
`set` empties the cache, yet inserting the new entry still leaves
`size = 1 > 0 = maxEntradas`, so the universally quantified claim fails at
the (degenerate but constructible) bound 0. -/
theorem cacheTTL_set_bound_cex :
    (cacheC4.set "k" 1 0).mapa.length = 1 ∧ cacheC4.maxEntradas = 0 := by
  constructor
  · rfl
  · rfl

/-- **C4 (amended).**  For every cache whose bound is at least 1 — whatever
the current state — `set(k, v)` leaves at most `maxEntradas` entries:
eviction runs when the size before insertion is at or above `maxEntradas`
and leaves at most `maxEntradas - 1` entries, so the insertion cannot
exceed the bound. -/
theorem cacheTTL_set_bound (c : CacheTTL Nat) (k : String) (v : Nat) (now : Nat)
    (hmax : 1 ≤ c.maxEntradas) :
    (c.set k v now).mapa.length ≤ c.maxEntradas := by
  rw [CacheTTL.set_mapa]
  have hmono := length_mapSet_le
    (if c.mapa.length ≥ c.maxEntradas then c.evictar now else c).mapa k
    { valor := v, expira := now + c.ttlMs }
  refine le_trans hmono ?_
  by_cases hge : c.mapa.length ≥ c.maxEntradas
  · rw [if_pos hge]
    have := CacheTTL.evictar_length_lt c now hmax
    omega
  · rw [if_neg hge]
    omega

/-- **C4, witness.** -/
theorem cacheTTL_set_bound_witness :
    ((CacheTTL.nova Nat 1 1).set "k" 7 0).mapa.length ≤
      (CacheTTL.nova Nat 1 1).maxEntradas :=
  cacheTTL_set_bound (CacheTTL.nova Nat 1 1) "k" 7 0 (by decide)

/-- **C10.**  The log mask: identifiers of length ≤ 8 are rendered as the
fixed string `"****"`; identifiers of length ≥ 9 keep their first 4 and
last 5 characters around the `"****"` infix; in particular for a 9-character
identifier the output is `take 4 ++ "****" ++ drop 4`, which contains every
character of the input (`take 4 ++ drop 4 = input`), hiding nothing. -/
theorem mascararTelefone_caracterizacao (tel : String) :
    (tel.length ≤ 8 → mascararTelefone tel = "****") ∧
    (9 ≤ tel.length → (mascararTelefone tel).data =
      tel.data.take 4 ++ "****".data ++ tel.data.drop (tel.data.length - 5)) ∧
    (tel.length = 9 →
      (mascararTelefone tel).data = tel.data.take 4 ++ "****".data ++ tel.data.drop 4 ∧
        tel.data.take 4 ++ tel.data.drop 4 = tel.data) := by
  obtain ⟨l⟩ := tel
  have hlen : (String.mk l).length = l.length := rfl
  refine ⟨?_, ?_, ?_⟩
  · intro h
    rw [hlen] at h
    unfold mascararTelefone mascararL
    rw [if_pos h]
  · intro h
    rw [hlen] at h
    unfold mascararTelefone mascararL
    rw [if_neg (by omega : ¬ l.length ≤ 8)]
  · intro h
    rw [hlen] at h
    constructor
    · unfold mascararTelefone mascararL
      rw [if_neg (by omega : ¬ l.length ≤ 8)]
      have h4 : l.length - 5 = 4 := by omega
      show l.take 4 ++ "****".data ++ l.drop (l.length - 5) =
        l.take 4 ++ "****".data ++ l.drop 4
      rw [h4]
    · exact List.take_append_drop 4 l

/-- **C10, witness.** -/
theorem mascararTelefone_caracterizacao_witness :
    mascararTelefone "12345678" = "****" ∧
      (mascararTelefone "123456789").data =
        "123456789".data.take 4 ++ "****".data ++ "123456789".data.drop 4 := by
  constructor
  · exact (mascararTelefone_caracterizacao "12345678").1 (by decide)
  · exact ((mascararTelefone_caracterizacao "123456789").2.2 (by decide)).1

/-! ## Webhook signature verifiers (ponte-chatwoot.ts 572–589 and 1294–1312)

The HMAC-SHA256 itself is an external library call
(`crypto.createHmac("sha256", secret).update(rawBody)`); its 32-byte digest
is taken as the explicit parameter `computed`, and `digest("hex")` is
modelled by `hexEncodeL`.  `Buffer.from(s, "hex")` follows Node semantics:
decode pairs of hex digits, stop silently at the first invalid pair, drop a
trailing lone digit.  `crypto.timingSafeEqual` throws on length mismatch,
modelled by `Option Bool` with `none` for the throw; both verifiers wrap it
in `try/catch` returning `false`. -/

/-- If the whole pattern matches at the head of the list, return the rest. -/
def restoAposPadrao : List Char → List Char → Option (List Char)
  | [], resto => some resto
  | _ :: _, [] => none
  | p :: ps, x :: xs => if x = p then restoAposPadrao ps xs else none

/-- Value of a hex digit as accepted by Node's hex decoder. -/
def hexVal (c : Char) : Option Nat :=
  if c.isDigit then some (c.toNat - '0'.toNat)
  else if 'a' ≤ c ∧ c ≤ 'f' then some (c.toNat - 'a'.toNat + 10)
  else if 'A' ≤ c ∧ c ≤ 'F' then some (c.toNat - 'A'.toNat + 10)
  else none

/-- `Buffer.from(s, "hex")`. -/
def bufferFromHexL : List Char → List Nat
  | c1 :: c2 :: resto =>
    match hexVal c1, hexVal c2 with
    | some hi, some lo => (hi * 16 + lo) :: bufferFromHexL resto
    | _, _ => []
  | _ => []

def toHexDigit (n : Nat) : Char := "0123456789abcdef".data.getD n '0'

/-- `digest("hex")`: two lowercase hex digits per byte. -/
def hexEncodeL : List Nat → List Char
  | [] => []
  | b :: bs => toHexDigit (b / 16) :: toHexDigit (b % 16) :: hexEncodeL bs

/-- `crypto.timingSafeEqual`: `none` models the exception on length
mismatch ("constant time" is a timing property outside the embedding). -/
def timingSafeEqual (a b : List Nat) : Option Bool :=
  if a.length = b.length then some (a == b) else none

/-- Header value after optional `"sha256="` stripping (handoff dialect). -/
def expectedDoHeader (header : List Char) : List Char :=
  match restoAposPadrao "sha256=".data header with
  | some resto => resto
  | none => header

/-- `verificarHmacHandoff` (ponte-chatwoot.ts 572–589), list level. -/
def verificarHmacHandoffL (computed : List Nat) (header : List Char) : Bool :=
  let expected := expectedDoHeader header
  if expected.length = 0 ∨ expected.length < 10 then false
  else
    match timingSafeEqual (bufferFromHexL expected) (bufferFromHexL (hexEncodeL computed)) with
    | some b => b
    | none => false

def verificarHmacHandoff (computed : List Nat) (signatureHeader : String) : Bool :=
  verificarHmacHandoffL computed signatureHeader.data

/-- `validarAssinaturaWebhook` (ponte-chatwoot.ts 1294–1312), list level:
the `"sha256="` dialect is mandatory here. -/
def validarAssinaturaWebhookL (computed : List Nat) (header : List Char) : Bool :=
  match restoAposPadrao "sha256=".data header with
  | none => false
  | some expected =>
    match timingSafeEqual (bufferFromHexL expected) (bufferFromHexL (hexEncodeL computed)) with
    | some b => b
    | none => false

def validarAssinaturaWebhook (computed : List Nat) (signatureHeader : String) : Bool :=
  validarAssinaturaWebhookL computed signatureHeader.data

theorem hexVal_toHexDigit : ∀ n : Nat, n < 16 → hexVal (toHexDigit n) = some n := by
  decide

theorem bufferFromHexL_cons (c1 c2 : Char) (resto : List Char) (hi lo : Nat)
    (h1 : hexVal c1 = some hi) (h2 : hexVal c2 = some lo) :
    bufferFromHexL (c1 :: c2 :: resto) = (hi * 16 + lo) :: bufferFromHexL resto := by
  simp only [bufferFromHexL, h1, h2]

/-- Hex round trip on byte lists. -/
theorem bufferFromHexL_hexEncodeL (bs : List Nat) (h : ∀ b ∈ bs, b < 256) :
    bufferFromHexL (hexEncodeL bs) = bs := by
  induction bs with
  | nil => rfl
  | cons b t ih =>
    have hb : b < 256 := h b (List.mem_cons_self b t)
    have h1 : b / 16 < 16 := by omega
    have h2 : b % 16 < 16 := by omega
    show bufferFromHexL (toHexDigit (b / 16) :: toHexDigit (b % 16) :: hexEncodeL t) = b :: t
    rw [bufferFromHexL_cons _ _ _ _ _ (hexVal_toHexDigit _ h1) (hexVal_toHexDigit _ h2),
      ih (fun x hx => h x (List.mem_cons_of_mem b hx))]
    congr 1
    omega

/-- Header for the C5 counterexample: a correct 64-hex-digit signature for
the all-zero digest, followed by two non-hex garbage characters. -/
def hdrC5 : String := "sha256=" ++ String.mk (List.replicate 64 '0') ++ "zz"

/-- **C5, counterexample.**  The claim says every malformed-hex or
wrong-length header value yields `false`.  Node's `Buffer.from(·, "hex")`
silently truncates at the first invalid pair, so for the all-zero 32-byte
digest the 66-character value `"0"*64 ++ "zz"` — malformed hex (`'z'` is
not a hex digit) of the wrong length — still decodes to the digest bytes
and `verificarHmacHandoff` returns `true`. -/
theorem verificarHmac_lixo_apos_hex_cex :
    verificarHmacHandoff (List.replicate 32 0) hdrC5 = true ∧
      (expectedDoHeader hdrC5.data).length = 66 ∧ hexVal 'z' = none := by
  refine ⟨?_, ?_, ?_⟩
  · rfl
  · rfl
  · rfl

/-- The `try { timingSafeEqual } catch { return false }` pattern: true
exactly when the two byte lists are equal (equal lengths included). -/
theorem timingSafeCatch_eq_true (a b : List Nat) :
    (match timingSafeEqual a b with | some x => x | none => false) = true ↔ a = b := by
  unfold timingSafeEqual
  by_cases h : a.length = b.length
  · rw [if_pos h]
    show (a == b) = true ↔ a = b
    exact beq_iff_eq
  · rw [if_neg h]
    show false = true ↔ a = b
    refine iff_of_false (by simp) ?_
    intro hab
    rw [hab] at h
    exact h rfl

theorem verificarHmacHandoffL_curto (computed : List Nat) (header : List Char)
    (h : (expectedDoHeader header).length = 0 ∨ (expectedDoHeader header).length < 10) :
    verificarHmacHandoffL computed header = false := by
  unfold verificarHmacHandoffL
  rw [if_pos h]

theorem verificarHmacHandoffL_longo (computed : List Nat) (header : List Char)
    (h : ¬ ((expectedDoHeader header).length = 0 ∨ (expectedDoHeader header).length < 10)) :
    verificarHmacHandoffL computed header =
      match timingSafeEqual (bufferFromHexL (expectedDoHeader header))
          (bufferFromHexL (hexEncodeL computed)) with
      | some b => b
      | none => false := by
  unfold verificarHmacHandoffL
  rw [if_neg h]

theorem validarAssinaturaWebhookL_none (computed : List Nat) (header : List Char)
    (hm : restoAposPadrao "sha256=".data header = none) :
    validarAssinaturaWebhookL computed header = false := by
  unfold validarAssinaturaWebhookL
  rw [hm]

theorem validarAssinaturaWebhookL_some (computed : List Nat) (header : List Char)
    (expected : List Char)
    (hm : restoAposPadrao "sha256=".data header = some expected) :
    validarAssinaturaWebhookL computed header =
      match timingSafeEqual (bufferFromHexL expected)
          (bufferFromHexL (hexEncodeL computed)) with
      | some b => b
      | none => false := by
  unfold validarAssinaturaWebhookL
  rw [hm]

/-- **C5 (amended).**  Both verifiers are total (the `timingSafeEqual`
exception is the only throw site and it is caught), and they return `true`
exactly when the Node hex decoding of the (stripped) header value — its
longest usable prefix of hex-digit pairs — equals the computed digest
bytes; for the handoff dialect the stripped value must also be at least 10
characters, and for the webhook dialect the `"sha256="` marker is
mandatory.  Hence any header whose decoded prefix differs from the digest
(in particular wrong-length valid hex) yields `false` — but a correct
full-length signature followed by trailing garbage is accepted as `true`,
which is the single exception to the claim. -/
theorem verificadores_hmac_caracterizacao (computed : List Nat) (header : String)
    (hbytes : ∀ b ∈ computed, b < 256) :
    (verificarHmacHandoff computed header = true ↔
      (10 ≤ (expectedDoHeader header.data).length ∧
        bufferFromHexL (expectedDoHeader header.data) = computed)) ∧
    (validarAssinaturaWebhook computed header = true ↔
      (∃ resto, restoAposPadrao "sha256=".data header.data = some resto ∧
        bufferFromHexL resto = computed)) := by
  have hround : bufferFromHexL (hexEncodeL computed) = computed :=
    bufferFromHexL_hexEncodeL computed hbytes
  constructor
  · show verificarHmacHandoffL computed header.data = true ↔ _
    by_cases hshort : (expectedDoHeader header.data).length = 0 ∨
        (expectedDoHeader header.data).length < 10
    · rw [verificarHmacHandoffL_curto computed header.data hshort]
      refine iff_of_false (by simp) ?_
      rintro ⟨hlen, _⟩
      omega
    · rw [verificarHmacHandoffL_longo computed header.data hshort,
        timingSafeCatch_eq_true, hround]
      constructor
      · intro hb
        exact ⟨by omega, hb⟩
      · intro hb
        exact hb.2
  · show validarAssinaturaWebhookL computed header.data = true ↔ _
    cases hm : restoAposPadrao "sha256=".data header.data with
    | none =>
      rw [validarAssinaturaWebhookL_none computed header.data hm]
      refine iff_of_false (by simp) ?_
      rintro ⟨resto, hr, _⟩
      exact absurd hr (by simp)
    | some expected =>
      rw [validarAssinaturaWebhookL_some computed header.data expected hm,
        timingSafeCatch_eq_true, hround]
      constructor
      · intro hb
        exact ⟨expected, rfl, hb⟩
      · rintro ⟨resto, hr, hb⟩
        cases hr
        exact hb

/-- **C5, witness.** -/
theorem verificadores_hmac_caracterizacao_witness :
    verificarHmacHandoff (List.replicate 32 0)
        ("sha256=" ++ String.mk (List.replicate 64 '0')) = true ∧
      validarAssinaturaWebhook (List.replicate 32 0)
        ("sha256=" ++ String.mk (List.replicate 63 '0' ++ ['1'])) = false := by
  constructor
  · exact (verificadores_hmac_caracterizacao (List.replicate 32 0)
      ("sha256=" ++ String.mk (List.replicate 64 '0')) (by decide)).1.mpr
      ⟨by decide, by decide⟩
  · cases hb : validarAssinaturaWebhook (List.replicate 32 0)
        ("sha256=" ++ String.mk (List.replicate 63 '0' ++ ['1'])) with
    | false => rfl
    | true =>
      obtain ⟨resto, hr, hbuf⟩ := (verificadores_hmac_caracterizacao
        (List.replicate 32 0)
        ("sha256=" ++ String.mk (List.replicate 63 '0' ++ ['1']))
        (by decide)).2.mp hb
      have hr0 : restoAposPadrao "sha256=".data
          ("sha256=" ++ String.mk (List.replicate 63 '0' ++ ['1'])).data =
            some (List.replicate 63 '0' ++ ['1']) := by decide
      rw [hr0] at hr
      cases hr
      exact absurd hbuf (by decide)

/-! ## Retry/backoff executor (`comRetry`/`isTransientError`, api-meta plugin)

```ts
function isTransientError(err: unknown): boolean {
  ... status ∈ {429, 500, 502, 503, 504} ...
  return /\b(429|500|502|503|504)\b/.test(msg)
    || /ETIMEDOUT|ECONNRESET|ECONNREFUSED|AbortError|rate\s*limit/i.test(msg);
}
```
An error object is modelled by its three fields the executor inspects:
`status` collapses `e.status ?? e.statusCode ?? e.response.status`;
`retryAfterMs` is the already-parsed `Retry-After` header in milliseconds
(the seconds/HTTP-date parsing of `extrairRetryAfterMs` happens in
`Number`/`Date.parse`, external library calls); `message` is the error
message the two regexes scan. -/

structure ErroMeta where
  status : Option Nat
  message : String
  retryAfterMs : Option Nat
  deriving Repr, DecidableEq, Inhabited

def TRANSIENT_STATUS_CODES : List Nat := [429, 500, 502, 503, 504]

/-- JS `\w` (`[A-Za-z0-9_]`). -/
def isWordChar (c : Char) : Bool := c.isAlphanum || c = '_'

def codigosTransientes : List (List Char) :=
  [['4', '2', '9'], ['5', '0', '0'], ['5', '0', '2'], ['5', '0', '3'], ['5', '0', '4']]

/-- `/\b(429|500|502|503|504)\b/.test(msg)`: scan every position, keeping
the previous character to decide the left word boundary. -/
def temCodigoHttp (prev : Option Char) : List Char → Bool
  | [] => false
  | x :: xs =>
    (codigosTransientes.any (fun code =>
      match restoAposPadrao code (x :: xs) with
      | some resto =>
        (match prev with | none => true | some p => !(isWordChar p)) &&
          (match resto.head? with | none => true | some n => !(isWordChar n))
      | none => false))
    || temCodigoHttp (some x) xs

def msgTemCodigo (msg : List Char) : Bool := temCodigoHttp none msg

/-- Substring test used for the fixed case-folded signatures. -/
def contemPadrao (padrao : List Char) : List Char → Bool
  | [] => (restoAposPadrao padrao []).isSome
  | x :: xs => (restoAposPadrao padrao (x :: xs)).isSome || contemPadrao padrao xs

/-- `rate\s*limit` (on the lowercased message). -/
def temRateLimit : List Char → Bool
  | [] => false
  | x :: xs =>
    (match restoAposPadrao ['r', 'a', 't', 'e'] (x :: xs) with
     | some resto =>
       (restoAposPadrao ['l', 'i', 'm', 'i', 't']
         (resto.dropWhile (fun c => c.isWhitespace))).isSome
     | none => false)
    || temRateLimit xs

/-- `/ETIMEDOUT|ECONNRESET|ECONNREFUSED|AbortError|rate\s*limit/i.test(msg)`. -/
def msgTemAssinaturaTransiente (msg : List Char) : Bool :=
  let lower := msg.map Char.toLower
  contemPadrao "etimedout".data lower || contemPadrao "econnreset".data lower ||
    contemPadrao "econnrefused".data lower || contemPadrao "aborterror".data lower ||
    temRateLimit lower

def isTransientError (err : ErroMeta) : Bool :=
  (match err.status with
   | some s => TRANSIENT_STATUS_CODES.contains s
   | none => false)
  || msgTemCodigo err.message.data || msgTemAssinaturaTransiente err.message.data

/-- `Retry-After` in milliseconds, capped at 60 s; non-positive values give
`undefined`. -/
def extrairRetryAfterMs (err : ErroMeta) : Option Nat :=
  match err.retryAfterMs with
  | some n => if n > 0 then some (min n 60000) else none
  | none => none

def MAX_RETRIES : Nat := 3

def RETRY_BASE_MS : Nat := 1000

/-- The `for (tentativa = 0; tentativa < MAX_RETRIES; tentativa++)` loop of
`comRetry`, with `fuel = MAX_RETRIES - tentativa` remaining iterations and
`ultimoErro` the last caught error (the `fuel = 0` case is the trailing
`throw ultimoErro`, unreachable from `comRetry` because the final iteration
always rethrows).  The operation `fn` is indexed by the attempt number; the
second component lists the backoff waits performed, in order. -/
def comRetryGo {A : Type} (fn : Nat → Except ErroMeta A) (ultimoErro : ErroMeta)
    (fuel tentativa : Nat) : Except ErroMeta A × List Nat :=
  if hf : fuel = 0 then (Except.error ultimoErro, [])
  else
    match fn tentativa with
    | Except.ok v => (Except.ok v, [])
    | Except.error e =>
      if isTransientError e = false ∨ tentativa = MAX_RETRIES - 1 then
        (Except.error e, [])
      else
        let espera := (extrairRetryAfterMs e).getD (RETRY_BASE_MS * 2 ^ tentativa)
        let resto := comRetryGo fn e (fuel - 1) (tentativa + 1)
        (resto.1, espera :: resto.2)
termination_by fuel
decreasing_by omega

def comRetry {A : Type} (fn : Nat → Except ErroMeta A) : Except ErroMeta A × List Nat :=
  comRetryGo fn default MAX_RETRIES 0

theorem comRetryGo_ok {A : Type} (fn : Nat → Except ErroMeta A) (u : ErroMeta)
    (fuel t : Nat) (v : A) (hf : fuel ≠ 0) (h : fn t = Except.ok v) :
    comRetryGo fn u fuel t = (Except.ok v, []) := by
  unfold comRetryGo
  rw [dif_neg hf, h]

theorem comRetryGo_error_stop {A : Type} (fn : Nat → Except ErroMeta A) (u : ErroMeta)
    (fuel t : Nat) (e : ErroMeta) (hf : fuel ≠ 0) (h : fn t = Except.error e)
    (hc : isTransientError e = false ∨ t = MAX_RETRIES - 1) :
    comRetryGo fn u fuel t = (Except.error e, []) := by
  unfold comRetryGo
  rw [dif_neg hf, h]
  simp only [if_pos hc]

theorem comRetryGo_error_retry {A : Type} (fn : Nat → Except ErroMeta A) (u : ErroMeta)
    (fuel t : Nat) (e : ErroMeta) (hf : fuel ≠ 0) (h : fn t = Except.error e)
    (ht : isTransientError e = true) (hne : t ≠ MAX_RETRIES - 1) :
    comRetryGo fn u fuel t =
      ((comRetryGo fn e (fuel - 1) (t + 1)).1,
        (extrairRetryAfterMs e).getD (RETRY_BASE_MS * 2 ^ t) ::
          (comRetryGo fn e (fuel - 1) (t + 1)).2) := by
  conv_lhs => unfold comRetryGo
  rw [dif_neg hf, h]
  simp only [if_neg (show ¬ (isTransientError e = false ∨ t = MAX_RETRIES - 1) by
    simp [ht, hne])]

/-- Along the loop invariant `fuel + tentativa = MAX_RETRIES`, at most
`fuel - 1` backoff waits can happen (the final iteration always returns or
rethrows). -/
theorem comRetryGo_delays_le {A : Type} (fn : Nat → Except ErroMeta A) :
    ∀ (fuel : Nat) (u : ErroMeta) (t : Nat), fuel + t = MAX_RETRIES →
      (comRetryGo fn u fuel t).2.length ≤ fuel - 1 := by
  intro fuel
  induction fuel with
  | zero =>
    intro u t _
    unfold comRetryGo
    rw [dif_pos rfl]
    simp
  | succ f ih =>
    intro u t hinv
    cases hfn : fn t with
    | ok v =>
      rw [comRetryGo_ok fn u (f + 1) t v (by omega) hfn]
      simp
    | error e =>
      by_cases hc : isTransientError e = false ∨ t = MAX_RETRIES - 1
      · rw [comRetryGo_error_stop fn u (f + 1) t e (by omega) hfn hc]
        simp
      · push_neg at hc
        have ht : isTransientError e = true := by
          cases hb : isTransientError e with
          | false => exact absurd hb hc.1
          | true => rfl
        rw [comRetryGo_error_retry fn u (f + 1) t e (by omega) hfn ht hc.2]
        have hrec := ih e (t + 1) (by omega)
        have hf1 : 1 ≤ f := by
          unfold MAX_RETRIES at hinv hc
          omega
        simp only [Nat.add_sub_cancel, List.length_cons]
        omega

/-- Error for the C6 counterexample: no `status` property at all, message
`"503"`, no `Retry-After`. -/
def erro503Msg : ErroMeta := { status := none, message := "503", retryAfterMs := none }

/-- **C6, counterexample.**  The claim classifies as permanent — "rethrown
on first occurrence without any retry" — every error whose status is not in
{429, 500, 502, 503, 504} and whose message has no timeout/connection-reset
signature.  `erro503Msg` has no status property and its message `"503"`
matches none of the timeout/connection-reset signatures, yet
`isTransientError` also scans the message for the five codes
(`/\b(429|500|502|503|504)\b/`), so the executor retries it twice (backoff
waits 1000 ms and 2000 ms) instead of rethrowing immediately. -/
theorem comRetry_codigo_na_mensagem_cex :
    erro503Msg.status = none ∧
      msgTemAssinaturaTransiente erro503Msg.message.data = false ∧
      isTransientError erro503Msg = true ∧
      (comRetry (fun _ => (Except.error erro503Msg : Except ErroMeta Nat))).2 =
        [1000, 2000] := by
  refine ⟨rfl, rfl, rfl, ?_⟩
  unfold comRetry
  rw [comRetryGo_error_retry _ default MAX_RETRIES 0 erro503Msg (by decide) rfl rfl
    (by decide)]
  rw [show (0 : Nat) + 1 = 1 from rfl]
  rw [comRetryGo_error_retry _ erro503Msg (MAX_RETRIES - 1) 1 erro503Msg (by decide)
    rfl rfl (by decide)]
  rw [show (1 : Nat) + 1 = 2 from rfl]
  rw [comRetryGo_error_stop _ erro503Msg (MAX_RETRIES - 1 - 1) 2 erro503Msg
    (by decide) rfl (Or.inr rfl)]
  rfl

/-- **C6 (amended).**  With transience as the code defines it — a status
property in {429, 500, 502, 503, 504}, **or** one of those codes appearing
as a standalone word in the message, or a timeout/connection-reset/abort/
rate-limit signature in the message — the executor behaves as claimed:
(1) an operation failing with plain 503 errors on attempts 0 and 1 and
succeeding on attempt 2 returns the success after exactly 2 retries with
backoff waits `[1000, 2000]` (base·2^attempt, increasing); (2) an error
that is not transient in this sense is rethrown on its first occurrence
with no retry; (3) the attempt ceiling is 3: never more than 2 waits. -/
theorem comRetry_caracterizacao :
    (∀ (v : Nat) (e1 e2 : ErroMeta) (fn : Nat → Except ErroMeta Nat),
      fn 0 = Except.error e1 → fn 1 = Except.error e2 → fn 2 = Except.ok v →
      e1.status = some 503 → e2.status = some 503 →
      e1.retryAfterMs = none → e2.retryAfterMs = none →
      comRetry fn = (Except.ok v, [1000, 2000])) ∧
    (∀ (e : ErroMeta) (fn : Nat → Except ErroMeta Nat),
      fn 0 = Except.error e → isTransientError e = false →
      comRetry fn = (Except.error e, [])) ∧
    (∀ fn : Nat → Except ErroMeta Nat,
      (comRetry fn).2.length ≤ MAX_RETRIES - 1) := by
  refine ⟨?_, ?_, ?_⟩
  · intro v e1 e2 fn h0 h1 h2 hs1 hs2 hr1 hr2
    have ht1 : isTransientError e1 = true := by
      unfold isTransientError
      rw [hs1]
      simp [TRANSIENT_STATUS_CODES]
    have ht2 : isTransientError e2 = true := by
      unfold isTransientError
      rw [hs2]
      simp [TRANSIENT_STATUS_CODES]
    have hx1 : extrairRetryAfterMs e1 = none := by
      unfold extrairRetryAfterMs
      rw [hr1]
    have hx2 : extrairRetryAfterMs e2 = none := by
      unfold extrairRetryAfterMs
      rw [hr2]
    unfold comRetry
    rw [comRetryGo_error_retry fn default MAX_RETRIES 0 e1 (by decide) h0 ht1
      (by decide)]
    rw [show (0 : Nat) + 1 = 1 from rfl]
    rw [comRetryGo_error_retry fn e1 (MAX_RETRIES - 1) 1 e2 (by decide) h1 ht2
      (by decide)]
    rw [show (1 : Nat) + 1 = 2 from rfl]
    rw [comRetryGo_ok fn e2 (MAX_RETRIES - 1 - 1) 2 v (by decide) h2]
    rw [hx1, hx2]
    rfl
  · intro e fn h0 hperm
    unfold comRetry
    rw [comRetryGo_error_stop fn default MAX_RETRIES 0 e (by decide) h0 (Or.inl hperm)]
  · intro fn
    exact comRetryGo_delays_le fn MAX_RETRIES default 0 rfl

/-- Concrete scenario for the C6 witness: a plain 503 error. -/
def erro503Plain : ErroMeta :=
  { status := some 503, message := "Service Unavailable", retryAfterMs := none }

def fnC6 (t : Nat) : Except ErroMeta Nat :=
  if t = 0 then Except.error erro503Plain
  else if t = 1 then Except.error erro503Plain
  else Except.ok 42

/-- **C6, witness.** -/
theorem comRetry_caracterizacao_witness :
    comRetry fnC6 = (Except.ok 42, [1000, 2000]) :=
  comRetry_caracterizacao.1 42 erro503Plain erro503Plain fnC6 rfl rfl rfl rfl rfl
    rfl rfl

/-! ## Idempotency ledger and outbound delivery gate (api-meta plugin)

The in-memory `idempotencyCache` map is passed explicitly; the atomic
disk flush (`salvarIdempotencyEmDisco`) mirrors the map and is not part of
the properties below.  `sendPayloadModelo` is the idempotency skeleton of
`apiMetaOutbound.sendPayload`: look the key up, short-circuit on a fresh
hit, otherwise run the network operation under `comRetry` and record the
result; the third component counts how many times the network operation
`enviar` was invoked (attempts = backoff waits + 1, and 0 on a cache hit).
The template/media/text branches share this skeleton verbatim, with
`enviar` standing for the respective `enviar*CloudApi` call. -/

def IDEMPOTENCY_TTL_MS : Nat := 24 * 60 * 60 * 1000

structure IdempotencyEntry where
  messageId : String
  channel : String
  timestamp : Nat
  deriving Repr, DecidableEq

/-- `verificarIdempotency`: a hit older than (or exactly at) the TTL is
deleted and reported absent; returns the lookup result and the updated
cache. -/
def verificarIdempotency (key : String) (now : Nat)
    (cache : List (String × IdempotencyEntry)) :
    Option IdempotencyEntry × List (String × IdempotencyEntry) :=
  match lookupKey key cache with
  | none => (none, cache)
  | some cached =>
    if now - cached.timestamp ≥ IDEMPOTENCY_TTL_MS then (none, eraseKey key cache)
    else (some cached, cache)

/-- `registrarIdempotency`: store the result under the key with the current
timestamp. -/
def registrarIdempotency (key : String) (channel messageId : String) (now : Nat)
    (cache : List (String × IdempotencyEntry)) : List (String × IdempotencyEntry) :=
  mapSet cache key { messageId := messageId, channel := channel, timestamp := now }

/-- The with-key path of `sendPayload`, split out so the idempotency gate
can be reasoned about directly. -/
def sendPayloadComChave (key : String) (now : Nat)
    (cache : List (String × IdempotencyEntry))
    (enviar : Nat → Except ErroMeta String) :
    Except ErroMeta (String × String) × List (String × IdempotencyEntry) × Nat :=
  match verificarIdempotency key now cache with
  | (some cached, cache1) => (Except.ok (cached.channel, cached.messageId), cache1, 0)
  | (none, cache1) =>
    match comRetry enviar with
    | (Except.ok mid, delays) =>
      (Except.ok ("api-meta", mid),
        registrarIdempotency key "api-meta" mid now cache1, delays.length + 1)
    | (Except.error e, delays) => (Except.error e, cache1, delays.length + 1)

def sendPayloadModelo (idempotencyKey : Option String) (now : Nat)
    (cache : List (String × IdempotencyEntry))
    (enviar : Nat → Except ErroMeta String) :
    Except ErroMeta (String × String) × List (String × IdempotencyEntry) × Nat :=
  match idempotencyKey with
  | some key => sendPayloadComChave key now cache enviar
  | none =>
    match comRetry enviar with
    | (Except.ok mid, delays) => (Except.ok ("api-meta", mid), cache, delays.length + 1)
    | (Except.error e, delays) => (Except.error e, cache, delays.length + 1)

theorem sendPayloadModelo_some (key : String) (now : Nat)
    (cache : List (String × IdempotencyEntry))
    (enviar : Nat → Except ErroMeta String) :
    sendPayloadModelo (some key) now cache enviar =
      sendPayloadComChave key now cache enviar := rfl

theorem verificarIdempotency_fresh (key : String) (now : Nat)
    (cache : List (String × IdempotencyEntry)) (e : IdempotencyEntry)
    (h : lookupKey key cache = some e) (hfresh : now - e.timestamp < IDEMPOTENCY_TTL_MS) :
    verificarIdempotency key now cache = (some e, cache) := by
  unfold verificarIdempotency
  rw [h]
  show (if now - e.timestamp ≥ IDEMPOTENCY_TTL_MS
      then ((none : Option IdempotencyEntry), eraseKey key cache)
      else (some e, cache)) = (some e, cache)
  rw [if_neg (by omega)]

theorem verificarIdempotency_stale (key : String) (now : Nat)
    (cache : List (String × IdempotencyEntry)) (e : IdempotencyEntry)
    (h : lookupKey key cache = some e) (hstale : now - e.timestamp ≥ IDEMPOTENCY_TTL_MS) :
    verificarIdempotency key now cache = (none, eraseKey key cache) := by
  unfold verificarIdempotency
  rw [h]
  show (if now - e.timestamp ≥ IDEMPOTENCY_TTL_MS
      then ((none : Option IdempotencyEntry), eraseKey key cache)
      else (some e, cache)) = (none, eraseKey key cache)
  rw [if_pos hstale]

theorem verificarIdempotency_miss (key : String) (now : Nat)
    (cache : List (String × IdempotencyEntry)) (h : lookupKey key cache = none) :
    verificarIdempotency key now cache = (none, cache) := by
  unfold verificarIdempotency
  rw [h]

theorem sendPayloadModelo_hit (key : String) (now : Nat)
    (cache : List (String × IdempotencyEntry)) (e : IdempotencyEntry)
    (enviar : Nat → Except ErroMeta String)
    (hv : verificarIdempotency key now cache = (some e, cache)) :
    sendPayloadModelo (some key) now cache enviar =
      (Except.ok (e.channel, e.messageId), cache, 0) := by
  rw [sendPayloadModelo_some]
  unfold sendPayloadComChave
  rw [hv]

theorem sendPayloadModelo_miss_ok (key : String) (now : Nat)
    (cache : List (String × IdempotencyEntry))
    (enviar : Nat → Except ErroMeta String) (mid : String)
    (hv : verificarIdempotency key now cache = (none, cache))
    (hr : comRetry enviar = (Except.ok mid, [])) :
    sendPayloadModelo (some key) now cache enviar =
      (Except.ok ("api-meta", mid),
        registrarIdempotency key "api-meta" mid now cache, 1) := by
  rw [sendPayloadModelo_some]
  unfold sendPayloadComChave
  rw [hv, hr]
  rfl

/-- Entry for the C7 counterexample, recorded at time 0. -/
def entradaC7 : IdempotencyEntry :=
  { messageId := "mid1", channel := "api-meta", timestamp := 0 }

/-- **C7, counterexample.**  The claim promises the previously recorded
result whenever the record is "not older than the 24h TTL".  A record of
age exactly `IDEMPOTENCY_TTL_MS` is not older than the TTL, yet the code
tests `now - cached.timestamp >= IDEMPOTENCY_TTL_MS` and treats it as
absent: the second call re-invokes the network operation (1 attempt, not 0)
and returns the fresh `"mid2"` instead of the recorded `"mid1"`. -/
theorem idempotency_fronteira_ttl_cex :
    (sendPayloadModelo (some "k") IDEMPOTENCY_TTL_MS [("k", entradaC7)]
        (fun _ => Except.ok "mid2")).2.2 = 1 ∧
      (sendPayloadModelo (some "k") IDEMPOTENCY_TTL_MS [("k", entradaC7)]
        (fun _ => Except.ok "mid2")).1 = Except.ok ("api-meta", "mid2") ∧
      IDEMPOTENCY_TTL_MS - entradaC7.timestamp = IDEMPOTENCY_TTL_MS := by
  have hv : verificarIdempotency "k" IDEMPOTENCY_TTL_MS [("k", entradaC7)] =
      (none, eraseKey "k" [("k", entradaC7)]) :=
    verificarIdempotency_stale "k" IDEMPOTENCY_TTL_MS [("k", entradaC7)] entradaC7
      rfl (by decide)
  have herase : eraseKey "k" [("k", entradaC7)] = ([] : List (String × IdempotencyEntry)) := by
    decide
  have hr : comRetry (fun _ => (Except.ok "mid2" : Except ErroMeta String)) =
      (Except.ok "mid2", []) :=
    comRetryGo_ok _ default MAX_RETRIES 0 "mid2" (by decide) rfl
  have hs : sendPayloadModelo (some "k") IDEMPOTENCY_TTL_MS [("k", entradaC7)]
      (fun _ => Except.ok "mid2") =
        (Except.ok ("api-meta", "mid2"),
          registrarIdempotency "k" "api-meta" "mid2" IDEMPOTENCY_TTL_MS [], 1) := by
    rw [sendPayloadModelo_some]
    unfold sendPayloadComChave
    rw [hv, herase, hr]
    rfl
  rw [hs]
  exact ⟨rfl, rfl, rfl⟩

/-- **C7 (amended).**  (1) If a delivery under key `k` is recorded and its
age is **strictly less** than the 24 h TTL, a second call with `k` returns
the recorded channel/messageId, leaves the ledger unchanged and performs 0
network attempts.  (2) A record whose age is ≥ TTL (including exactly TTL)
is treated as absent and removed by the lookup.  (3) Two deliveries with
the same fresh key produce one recorded result: the first call sends once
and records, the second call (within the TTL) returns that result with no
network attempt. -/
theorem idempotency_caracterizacao :
    (∀ (key : String) (e : IdempotencyEntry) (cache : List (String × IdempotencyEntry))
        (now : Nat) (enviar : Nat → Except ErroMeta String),
      lookupKey key cache = some e → now - e.timestamp < IDEMPOTENCY_TTL_MS →
      sendPayloadModelo (some key) now cache enviar =
        (Except.ok (e.channel, e.messageId), cache, 0)) ∧
    (∀ (key : String) (e : IdempotencyEntry) (cache : List (String × IdempotencyEntry))
        (now : Nat),
      lookupKey key cache = some e → now - e.timestamp ≥ IDEMPOTENCY_TTL_MS →
      verificarIdempotency key now cache = (none, eraseKey key cache) ∧
        lookupKey key (eraseKey key cache) = none) ∧
    (∀ (key : String) (cache : List (String × IdempotencyEntry)) (now1 now2 : Nat)
        (enviar1 enviar2 : Nat → Except ErroMeta String) (mid : String),
      lookupKey key cache = none → enviar1 0 = Except.ok mid →
      now2 - now1 < IDEMPOTENCY_TTL_MS →
      (sendPayloadModelo (some key) now1 cache enviar1).1 =
          Except.ok ("api-meta", mid) ∧
        (sendPayloadModelo (some key) now1 cache enviar1).2.2 = 1 ∧
        sendPayloadModelo (some key) now2
            (sendPayloadModelo (some key) now1 cache enviar1).2.1 enviar2 =
          (Except.ok ("api-meta", mid),
            (sendPayloadModelo (some key) now1 cache enviar1).2.1, 0)) := by
  refine ⟨?_, ?_, ?_⟩
  · intro key e cache now enviar h hfresh
    exact sendPayloadModelo_hit key now cache e enviar
      (verificarIdempotency_fresh key now cache e h hfresh)
  · intro key e cache now h hstale
    exact ⟨verificarIdempotency_stale key now cache e h hstale,
      lookupKey_eraseKey_self cache key⟩
  · intro key cache now1 now2 enviar1 enviar2 mid hmiss hok hfresh
    have hr : comRetry enviar1 = (Except.ok mid, []) :=
      comRetryGo_ok enviar1 default MAX_RETRIES 0 mid (by decide) hok
    have h1 : sendPayloadModelo (some key) now1 cache enviar1 =
        (Except.ok ("api-meta", mid),
          registrarIdempotency key "api-meta" mid now1 cache, 1) :=
      sendPayloadModelo_miss_ok key now1 cache enviar1 mid
        (verificarIdempotency_miss key now1 cache hmiss) hr
    refine ⟨by rw [h1], by rw [h1], ?_⟩
    rw [h1]
    have hlook : lookupKey key (registrarIdempotency key "api-meta" mid now1 cache) =
        some { messageId := mid, channel := "api-meta", timestamp := now1 } :=
      lookupKey_mapSet_self cache key _
    exact sendPayloadModelo_hit key now2 _ _ enviar2
      (verificarIdempotency_fresh key now2 _ _ hlook (by simpa using hfresh))

/-- **C7, witness.** -/
theorem idempotency_caracterizacao_witness :
    sendPayloadModelo (some "k") 5
        (sendPayloadModelo (some "k") 0 [] (fun _ => Except.ok "m")).2.1
        (fun _ => Except.ok "m2") =
      (Except.ok ("api-meta", "m"),
        (sendPayloadModelo (some "k") 0 [] (fun _ => Except.ok "m")).2.1, 0) :=
  (idempotency_caracterizacao.2.2 "k" [] 0 5 (fun _ => Except.ok "m")
    (fun _ => Except.ok "m2") "m" rfl rfl (by decide)).2.2

/-! ## Handoff state store (`handoff-store`)

`loadStore`/`saveStore` read and atomically rewrite `handoff.json`; the
parsed on-disk entry array is the explicit `disk` argument, and each public
operation both consumes it and returns the array it persists. -/

/-- Modelled from the spec: `normalizeE164`, imported by the handoff store
from `src/utils.js`, which is not among the sources.  Per §4.1 the
normalizer strips a `@`-suffix and all non-digits and inserts the Brazilian
mobile-prefix digit for 12-digit `55`-prefixed inputs — the same algorithm
as `normalizarTelefoneE164` above — and is idempotent. -/
def normalizeE164 (s : String) : String :=
  String.mk (normalizeL s.data)

theorem normalizeE164_idem (s : String) :
    normalizeE164 (normalizeE164 s) = normalizeE164 s :=
  congrArg String.mk (normalizeL_idem s.data)

structure HandoffEntry where
  number : String
  activatedBy : String
  activatedAt : Nat
  expiresAt : Nat
  deriving Repr, DecidableEq

/-- `loadStore`: parse the file and keep only unexpired entries
(`e.expiresAt > now`); a missing/invalid file is the empty `disk`. -/
def loadStoreEntries (disk : List HandoffEntry) (now : Nat) : List HandoffEntry :=
  disk.filter (fun e => decide (e.expiresAt > now))

/-- `isHandoffActive`. -/
def isHandoffActive (disk : List HandoffEntry) (senderE164 : String) (now : Nat) :
    Option HandoffEntry :=
  (loadStoreEntries disk now).find?
    (fun e => (normalizeE164 e.number == normalizeE164 senderE164) &&
      decide (e.expiresAt > now))

/-- `activateHandoff`: drop any entry for the same normalized number, append
the fresh entry, persist; returns the entry and the persisted array. -/
def activateHandoff (disk : List HandoffEntry) (number activatedBy : String)
    (durationMinutes now : Nat) : HandoffEntry × List HandoffEntry :=
  let normalized := normalizeE164 number
  let kept := (loadStoreEntries disk now).filter
    (fun e => !(normalizeE164 e.number == normalized))
  let entry : HandoffEntry :=
    { number := normalized, activatedBy := activatedBy, activatedAt := now,
      expiresAt := now + durationMinutes * 60 * 1000 }
  (entry, kept ++ [entry])

/-- `deactivateHandoff`: remove entries for the number; persists (and
returns `true`) only when something was removed, else the disk state is
untouched. -/
def deactivateHandoff (disk : List HandoffEntry) (number : String) (now : Nat) :
    Bool × List HandoffEntry :=
  if ((loadStoreEntries disk now).filter
        (fun e => !(normalizeE164 e.number == normalizeE164 number))).length <
      (loadStoreEntries disk now).length then
    (true, (loadStoreEntries disk now).filter
      (fun e => !(normalizeE164 e.number == normalizeE164 number)))
  else
    (false, disk)

theorem find?_append_left_false {α : Type} (p : α → Bool) (l1 l2 : List α)
    (h : ∀ x ∈ l1, p x = false) : (l1 ++ l2).find? p = l2.find? p := by
  induction l1 with
  | nil => rfl
  | cons a t ih =>
    have ha : p a = false := h a (List.mem_cons_self a t)
    rw [List.cons_append, List.find?_cons_of_neg _ (by simp [ha])]
    exact ih fun x hx => h x (List.mem_cons_of_mem a hx)

theorem bool_not_true_of (b : Bool) (h : (!b) = true) : b = false := by
  cases b
  · rfl
  · exact absurd h (by simp)

theorem filter_singleton_of_pos {α : Type} (p : α → Bool) (a : α) (h : p a = true) :
    [a].filter p = [a] := by
  simp [List.filter, h]

theorem filter_singleton_of_neg {α : Type} (p : α → Bool) (a : α) (h : p a = false) :
    [a].filter p = [] := by
  simp [List.filter, h]

/-- **C8.**  For every on-disk state and number `n`: `activate(n, "x", 5)`
returns an entry with `expiresAt − activatedAt = 5 * 60 * 1000` ms;
immediately afterwards `isActive(n)` returns exactly that entry; and after
`deactivate(n)`, `isActive(n)` returns absent.  (`normalizeE164` is
modelled from the spec, §4.1; only its idempotence is used.) -/
theorem handoff_ativa_e_desativa (disk : List HandoffEntry) (n : String) (now : Nat) :
    (activateHandoff disk n "x" 5 now).1.expiresAt -
        (activateHandoff disk n "x" 5 now).1.activatedAt = 5 * 60 * 1000 ∧
      isHandoffActive (activateHandoff disk n "x" 5 now).2 n now =
        some (activateHandoff disk n "x" 5 now).1 ∧
      isHandoffActive
        (deactivateHandoff (activateHandoff disk n "x" 5 now).2 n now).2 n now =
          none := by
  set entry : HandoffEntry :=
    { number := normalizeE164 n, activatedBy := "x", activatedAt := now,
      expiresAt := now + 5 * 60 * 1000 } with hentry
  set kept := (loadStoreEntries disk now).filter
    (fun e => !(normalizeE164 e.number == normalizeE164 n)) with hkept
  have hact1 : (activateHandoff disk n "x" 5 now).1 = entry := rfl
  have hact2 : (activateHandoff disk n "x" 5 now).2 = kept ++ [entry] := rfl
  have hdec : decide (entry.expiresAt > now) = true := by
    refine decide_eq_true ?_
    show now + 5 * 60 * 1000 > now
    omega
  have hpentry : (normalizeE164 entry.number == normalizeE164 n) = true := by
    show (normalizeE164 (normalizeE164 n) == normalizeE164 n) = true
    rw [normalizeE164_idem]
    exact beq_self_eq_true _
  have hqkept : ∀ x ∈ kept, (normalizeE164 x.number == normalizeE164 n) = false := by
    intro x hx
    exact bool_not_true_of _ ((List.mem_filter.mp hx).2)
  refine ⟨?_, ?_, ?_⟩
  · rw [hact1]
    show (now + 5 * 60 * 1000) - now = 5 * 60 * 1000
    omega
  · rw [hact2, hact1]
    unfold isHandoffActive loadStoreEntries
    rw [List.filter_append, filter_singleton_of_pos _ entry hdec]
    rw [find?_append_left_false _ _ _ ?hfalse]
    case hfalse =>
      intro x hx
      show ((normalizeE164 x.number == normalizeE164 n) &&
        decide (x.expiresAt > now)) = false
      rw [hqkept x (List.mem_filter.mp hx).1, Bool.false_and]
    rw [List.find?_cons_of_pos _ ?hpos]
    case hpos =>
      show ((normalizeE164 entry.number == normalizeE164 n) &&
        decide (entry.expiresAt > now)) = true
      rw [hpentry, hdec, Bool.and_self]
  · rw [hact2]
    have hstore : loadStoreEntries (kept ++ [entry]) now =
        kept.filter (fun e => decide (e.expiresAt > now)) ++ [entry] := by
      unfold loadStoreEntries
      rw [List.filter_append, filter_singleton_of_pos _ entry hdec]
    have hafter : (kept.filter (fun e => decide (e.expiresAt > now)) ++ [entry]).filter
        (fun e => !(normalizeE164 e.number == normalizeE164 n)) =
          kept.filter (fun e => decide (e.expiresAt > now)) := by
      rw [List.filter_append, filter_singleton_of_neg _ entry (by
        show (!(normalizeE164 entry.number == normalizeE164 n)) = false
        rw [hpentry]
        rfl)]
      rw [List.append_nil]
      refine List.filter_eq_self.mpr ?_
      intro x hx
      show (!(normalizeE164 x.number == normalizeE164 n)) = true
      rw [hqkept x (List.mem_filter.mp hx).1]
      rfl
    have hdeact : deactivateHandoff (kept ++ [entry]) n now =
        (true, kept.filter (fun e => decide (e.expiresAt > now))) := by
      unfold deactivateHandoff
      rw [hstore, hafter]
      rw [if_pos (by
        rw [List.length_append]
        show _ < _ + 1
        omega)]
    rw [hdeact]
    unfold isHandoffActive
    rw [List.find?_eq_none]
    intro x hx
    have hxk : x ∈ kept := by
      unfold loadStoreEntries at hx
      exact (List.mem_filter.mp ((List.mem_filter.mp hx).1)).1
    show ¬ (((normalizeE164 x.number == normalizeE164 n) &&
      decide (x.expiresAt > now)) = true)
    rw [hqkept x hxk, Bool.false_and]
    simp
